import Mathlib

/-!
Shallow embedding of the skiff-apps front-end session/login caching logic and
wallet identity helpers, together with theorems settling the specification
claims about them.

Embedded sources:
* `walletUtils.ts` (skiff-front-utils): `createEmail`, `abbreviateWalletAddress`,
  `createAbbreviatedWalletEmail`, `isCosmosHubAddress`, `getWalletIcon`.
* the cached-login module (`tryCachedLogin`, `setNextIDAndReload`,
  `setDefaultEmailAlias`): modelled as a pure function from an explicit
  environment (oracles for local storage, the server query, decryption and the
  browser) to the returned login status together with an ordered trace of the
  side effects the code performs.
-/

namespace Skiff

/-! ## Wallet utilities (walletUtils.ts) -/

/-- `createEmail` from walletUtils.ts: the template literal
    `\x7balias\x7d@\x7bmailDomain\x7d`. -/
def createEmail (emailAlias mailDomain : String) : String :=
  emailAlias ++ "@" ++ mailDomain

/-- JavaScript `s.slice(-n)` for a natural `n`: the last `n` characters,
    except that `n = 0` gives the whole string (`slice(-0)` is `slice(0)`). -/
def jsSliceNeg (s : String) (n : Nat) : String :=
  if n = 0 then s else s.takeRight n

/-- `abbreviateWalletAddress` from walletUtils.ts.  A falsy (`undefined` or
    empty) address gives the empty string; otherwise the result is
    `slice(0, 2 + (startChars ?? 3))`, then `"..."`, then
    `slice(-(endChars ?? 4))`. -/
def abbreviateWalletAddress (walletAddress : Option String)
    (startChars endChars : Option Nat) : String :=
  match walletAddress with
  | none => ""
  | some w =>
    if w.isEmpty then ""
    else w.take (2 + startChars.getD 3) ++ "..." ++ jsSliceNeg w (endChars.getD 4)

/-- `createAbbreviatedWalletEmail` from walletUtils.ts:
    `createEmail(abbreviateWalletAddress(walletAddr), mailDomain)`. -/
def createAbbreviatedWalletEmail (walletAddr mailDomain : String) : String :=
  createEmail (abbreviateWalletAddress (some walletAddr) none none) mailDomain

/-- `isCosmosHubAddress` from walletUtils.ts, parameterised by the external
    keplr validator: `validate a = true` models `Bech32Address.validate(a,
    'cosmos')` returning normally, `false` models it throwing.  A falsy
    (`undefined` or empty) alias short-circuits to `false`; otherwise the
    try/catch turns the validator outcome into a boolean. -/
def isCosmosHubAddress (validate : String → Bool) (emailAlias : Option String) : Bool :=
  match emailAlias with
  | none => false
  | some a => if a.isEmpty then false else validate a

/-- The external address classifiers `getWalletIcon` consults, in the order the
    source lists them.  They come from the `validator` and `skiff-utils`
    libraries, outside this repository, so they are oracles of the model. -/
structure WalletChecks where
  isEthereumAddress : String → Bool
  isENSName : String → Bool
  cosmosValidate : String → Bool
  isJunoAddress : String → Bool
  isICNSName : String → Bool
  isSolanaAddress : String → Bool

/-- The three icons `getWalletIcon` can return. -/
inductive Icon
  | Ethereum
  | Atom
  | Solana
  deriving DecidableEq, Repr

/-- `getWalletIcon` from walletUtils.ts: falsy alias gives `undefined`, then
    the Ethereum checks, the Cosmos-family checks and the Solana check are
    tried in that order. -/
def getWalletIcon (c : WalletChecks) (emailAlias : Option String) : Option Icon :=
  match emailAlias with
  | none => none
  | some a =>
    if a.isEmpty then none
    else if c.isEthereumAddress a || c.isENSName a then some Icon.Ethereum
    else if isCosmosHubAddress c.cosmosValidate (some a) || c.isJunoAddress a
        || c.isICNSName a then some Icon.Atom
    else if c.isSolanaAddress a then some Icon.Solana
    else none

/-! ## Cached login flow (tryCachedLogin) -/

/-- A JavaScript string-or-missing value, distinguishing `undefined`, `null`
    and an actual string, as the reconciliation step in `tryCachedLogin` does
    (`!== undefined` vs truthiness tests). -/
inductive JStr
  | undef
  | nullv
  | str (s : String)
  deriving DecidableEq, Repr

/-- `x !== undefined` for a `JStr`. -/
def JStr.isDefined : JStr → Bool
  | .undef => false
  | _ => true

/-- JavaScript truthiness for a `JStr`: only a non-empty string is truthy. -/
def JStr.truthy : JStr → Bool
  | .str s => !s.isEmpty
  | _ => false

/-- The cached user object (`models.User`).  The fields `tryCachedLogin`
    touches are explicit; `otherFields` stands for all remaining fields of the
    decrypted user, which the flow must leave unchanged. -/
structure User where
  userID : String
  recoveryEmail : JStr
  unverifiedRecoveryEmail : JStr
  walletAddress : JStr
  rootOrgID : JStr
  publicData : String
  otherFields : String
  deriving DecidableEq, Repr

/-- The payload `decryptSessionCacheData` yields; `tryCachedLogin` only uses
    its `user` field. -/
structure SessionCacheData where
  user : User
  deriving DecidableEq, Repr

/-- The server-refreshed user fields (`GetSessionCacheQuery['currentUser']`,
    when present). -/
structure UserRefresh where
  recoveryEmail : JStr
  unverifiedRecoveryEmail : JStr
  walletAddress : JStr
  rootOrgID : JStr
  publicData : String
  deriving DecidableEq, Repr

/-- Classification of a GraphQL error, as `isApolloLogicErrorType` sees it. -/
inductive GqlErrorType
  | NotFound
  | BadRequest
  | NotAuthorized
  | OtherType
  deriving DecidableEq, Repr

/-- An error thrown by the session-cache query: an `ApolloError` carrying its
    `graphQLErrors` list, or any other error. -/
inductive QueryError
  | apollo (graphQLErrors : List GqlErrorType)
  | nonApollo
  deriving DecidableEq, Repr

/-- `isApolloLogicErrorType(err, T)` on the (possibly missing) first GraphQL
    error. -/
def isApolloLogicErrorType (e : Option GqlErrorType) (t : GqlErrorType) : Bool :=
  decide (e = some t)

/-- The data of a successful `GetSessionCache` query: the primary cache key,
    the alternative cache keys in server order, and the (nullable) current
    user. -/
structure ServerResponse where
  cacheKey : String
  alternativeCacheKeys : List String
  currentUser : Option UserRefresh
  deriving DecidableEq, Repr

/-- One observable side effect of the cached-login flow, in the order the code
    performs them. -/
inductive Effect
  | readCache
  | serverQuery
  | logInvalidCache
  | logUnexpectedError
  | clearLatestUserIDCache
  | reloadPage
  | decryptAttempt (key : String)
  | writeSessionCache (userID key : String)
  | removeOldFormatEntry
  | saveCurrentUserData (u : User)
  | sendUserDataToMobileApp (u : User)
  | startSetDefaultEmailAlias
  deriving DecidableEq, Repr

/-- The environment a run of `tryCachedLogin` executes in: the browser frame
    test, the cached blob in local storage, the outcome of the server query,
    the decryption oracle (`decrypt blob key` is the session-cache data on
    success, `none` when `decryptSessionCacheData` throws), whether local
    storage already holds a per-user-ID session-cache entry, the value
    `setNextUUID()` returns, and whether the page runs inside the mobile
    app. -/
structure Env where
  inFrame : Bool
  cachedBlob : Option String
  serverResult : Except QueryError ServerResponse
  decrypt : String → String → Option SessionCacheData
  perUserEntryExists : String → Bool
  setNextUUIDResult : Bool
  isMobileApp : Bool

/-- `setNextIDAndReload`: clear the latest-user-ID cache, then reload the page
    exactly when `setNextUUID()` reports a next user was set. -/
def setNextIDAndReload (env : Env) : List Effect :=
  Effect.clearLatestUserIDCache ::
    (if env.setNextUUIDResult then [Effect.reloadPage] else [])

/-- The guard of the catch block in `tryCachedLogin`: the error is an
    `ApolloError` whose first GraphQL error is `NotFound`, `BadRequest` or
    `NotAuthorized`. -/
def isInvalidSessionError : QueryError → Bool
  | .apollo errs =>
    isApolloLogicErrorType errs.head? GqlErrorType.NotFound ||
    isApolloLogicErrorType errs.head? GqlErrorType.BadRequest ||
    isApolloLogicErrorType errs.head? GqlErrorType.NotAuthorized
  | .nonApollo => false

/-- The reconciliation block of `tryCachedLogin` (the `if (userDataToRefresh)`
    body): `recoveryEmail` and `unverifiedRecoveryEmail` are copied when not
    `undefined`, `walletAddress` and `rootOrgID` when truthy, and `publicData`
    always. -/
def refreshUserData (u : User) : Option UserRefresh → User
  | none => u
  | some rd =>
    let u1 := if rd.recoveryEmail.isDefined then { u with recoveryEmail := rd.recoveryEmail } else u
    let u2 :=
      if rd.unverifiedRecoveryEmail.isDefined then
        { u1 with unverifiedRecoveryEmail := rd.unverifiedRecoveryEmail }
      else u1
    let u3 := if rd.walletAddress.truthy then { u2 with walletAddress := rd.walletAddress } else u2
    let u4 := if rd.rootOrgID.truthy then { u3 with rootOrgID := rd.rootOrgID } else u3
    { u4 with publicData := rd.publicData }

/-- The first try block of the decryption phase: decrypt with the primary
    cache key; on success, when no per-user-ID entry exists in local storage,
    rewrite the cache data (migrating the format) and remove the old-format
    `SESSION_CACHE` entry. -/
def tryPrimaryKey (env : Env) (blob cacheKey : String) : Option User × List Effect :=
  match env.decrypt blob cacheKey with
  | some data =>
    if env.perUserEntryExists data.user.userID then
      (some data.user, [Effect.decryptAttempt cacheKey])
    else
      (some data.user,
        [Effect.decryptAttempt cacheKey,
         Effect.writeSessionCache data.user.userID cacheKey,
         Effect.removeOldFormatEntry])
  | none => (none, [Effect.decryptAttempt cacheKey])

/-- The fallback loop of the decryption phase: try each alternative cache key
    in server order; the first that decrypts has the session-cache data
    re-encrypted under the primary `cacheKey`, and the loop breaks. -/
def tryAlternativeKeys (env : Env) (blob cacheKey : String) :
    List String → Option User × List Effect
  | [] => (none, [])
  | k :: ks =>
    match env.decrypt blob k with
    | some data =>
      (some data.user,
        [Effect.decryptAttempt k, Effect.writeSessionCache data.user.userID cacheKey])
    | none =>
      let rest := tryAlternativeKeys env blob cacheKey ks
      (rest.1, Effect.decryptAttempt k :: rest.2)

/-- The whole decryption phase of `tryCachedLogin` (the primary try block
    followed, when it fails, by the alternative-key loop): the decrypted user,
    if any, together with the effects performed. -/
def decryptPhase (env : Env) (blob cacheKey : String) (altKeys : List String) :
    Option User × List Effect :=
  let primary := tryPrimaryKey env blob cacheKey
  match primary.1 with
  | some u => (some u, primary.2)
  | none =>
    let alt := tryAlternativeKeys env blob cacheKey altKeys
    (alt.1, primary.2 ++ alt.2)

/-- The user the decryption phase ends with: the primary key result when it
    decrypts, otherwise the first alternative-key success. -/
def decryptedUserOf (env : Env) (blob : String) (res : ServerResponse) : Option User :=
  (decryptPhase env blob res.cacheKey res.alternativeCacheKeys).1

/-- `tryCachedLogin`: returns the login success status together with the
    ordered trace of side effects the run performs.  Mirrors the source: the
    frame check, the local-storage read, the server query with its catch
    block, the primary-then-alternative decryption phase, the reconciliation
    and persist step, and the remedial actions. -/
def tryCachedLogin (env : Env) : Bool × List Effect :=
  if env.inFrame then (false, [])
  else
    match env.cachedBlob with
    | none => (false, [Effect.readCache])
    | some blob =>
      if blob.isEmpty then (false, [Effect.readCache])
      else
        match env.serverResult with
        | .error e =>
          if isInvalidSessionError e then
            (false,
              [Effect.readCache, Effect.serverQuery, Effect.logInvalidCache] ++
                setNextIDAndReload env)
          else
            (false, [Effect.readCache, Effect.serverQuery, Effect.logUnexpectedError])
        | .ok res =>
          let fb := decryptPhase env blob res.cacheKey res.alternativeCacheKeys
          match fb.1 with
          | none =>
            (false,
              [Effect.readCache, Effect.serverQuery] ++ fb.2 ++ setNextIDAndReload env)
          | some u =>
            let merged := refreshUserData u res.currentUser
            (true,
              [Effect.readCache, Effect.serverQuery] ++ fb.2 ++
                [Effect.saveCurrentUserData merged] ++
                (if env.isMobileApp then [Effect.sendUserDataToMobileApp merged] else []) ++
                [Effect.startSetDefaultEmailAlias])

/-! ## Trace observations -/

/-- The keys of the decryption attempts in a trace, in order. -/
def decryptKeys (t : List Effect) : List String :=
  t.filterMap fun e =>
    match e with
    | Effect.decryptAttempt k => some k
    | _ => none

/-- The `(userID, key)` pairs of the session-cache writes in a trace. -/
def sessionWrites (t : List Effect) : List (String × String) :=
  t.filterMap fun e =>
    match e with
    | Effect.writeSessionCache uid k => some (uid, k)
    | _ => none

/-- The users passed to `saveCurrentUserData` in a trace. -/
def savedUsers (t : List Effect) : List User :=
  t.filterMap fun e =>
    match e with
    | Effect.saveCurrentUserData u => some u
    | _ => none

/-- The step of the four-step pipeline an effect belongs to: cache read,
    server query, decryption/fallback, local state write.  Logging, reloads
    and remedial actions carry no step number. -/
def phaseOf : Effect → Option Nat
  | Effect.readCache => some 0
  | Effect.serverQuery => some 1
  | Effect.decryptAttempt _ => some 2
  | Effect.writeSessionCache _ _ => some 2
  | Effect.removeOldFormatEntry => some 2
  | Effect.saveCurrentUserData _ => some 3
  | _ => none

/-- The pipeline steps a trace visits, in trace order. -/
def phaseList (t : List Effect) : List Nat :=
  t.filterMap phaseOf

/-- Spec-side description (from the claim wording) of the keys a fallback
    iteration tries: the alternative keys in server order, up to and including
    the first that decrypts. -/
def claimedAltOrder (ok : String → Bool) : List String → List String
  | [] => []
  | k :: ks => if ok k then [k] else k :: claimedAltOrder ok ks

/-- JavaScript falsiness of the cached blob (`!encryptedSessionCacheData`):
    missing or empty. -/
def blobFalsy : Option String → Bool
  | none => true
  | some s => s.isEmpty

/-- The current-user object of the server response, when the query succeeded
    and the response carried one. -/
def serverUserOf (env : Env) : Option UserRefresh :=
  match env.serverResult with
  | .ok res => res.currentUser
  | .error _ => none

/-- Formalisation of the claim that on every successful decryption the
    persisted user's `publicData` is overwritten with the server value
    (follows the claim's words; compared against the code below). -/
def publicDataAlwaysRefreshed (env : Env) : Prop :=
  ∀ u, Effect.saveCurrentUserData u ∈ (tryCachedLogin env).2 →
    ∃ rd, serverUserOf env = some rd ∧ u.publicData = rd.publicData

/-! ## Concrete sample data for witnesses -/

/-- An empty string constant. -/
def emptyStr : String := ""

/-- A sample wallet address. -/
def sampleAddr : String := "0x12345678abcd"

/-- A sample mail domain. -/
def sampleDomain : String := "skiff.com"

/-- Wallet checks where every classifier matches. -/
def allTrueChecks : WalletChecks :=
  { isEthereumAddress := fun _ => true
    isENSName := fun _ => true
    cosmosValidate := fun _ => true
    isJunoAddress := fun _ => true
    isICNSName := fun _ => true
    isSolanaAddress := fun _ => true }

/-- A sample encrypted blob. -/
def sampleBlob : String := "encrypted-session-cache"

/-- The primary cache key of the sample server response. -/
def sampleKey : String := "primary-key"

/-- Two alternative cache keys of the sample server response. -/
def altKeyA : String := "alt-key-a"

/-- Second alternative cache key. -/
def altKeyB : String := "alt-key-b"

/-- A sample decrypted user. -/
def sampleUser : User :=
  { userID := "user-1"
    recoveryEmail := JStr.nullv
    unverifiedRecoveryEmail := JStr.undef
    walletAddress := JStr.undef
    rootOrgID := JStr.undef
    publicData := "old-public-data"
    otherFields := "untouched" }

/-- Sample server-refreshed user fields. -/
def sampleRefresh : UserRefresh :=
  { recoveryEmail := JStr.str "new@recovery.mail"
    unverifiedRecoveryEmail := JStr.undef
    walletAddress := JStr.str "0xwallet"
    rootOrgID := JStr.nullv
    publicData := "new-public-data" }

/-- A sample server response with user data. -/
def sampleRes : ServerResponse :=
  { cacheKey := sampleKey
    alternativeCacheKeys := [altKeyA, altKeyB]
    currentUser := some sampleRefresh }

/-- A sample server response whose `currentUser` is null. -/
def sampleResNoUser : ServerResponse :=
  { cacheKey := sampleKey
    alternativeCacheKeys := []
    currentUser := none }

/-- A decryption oracle under which only `altKeyB` decrypts `sampleBlob`. -/
def decryptAltOnly : String → String → Option SessionCacheData :=
  fun b k => if b = sampleBlob ∧ k = altKeyB then some { user := sampleUser } else none

/-- A decryption oracle under which only the primary `sampleKey` decrypts
    `sampleBlob`. -/
def decryptPrimaryOnly : String → String → Option SessionCacheData :=
  fun b k => if b = sampleBlob ∧ k = sampleKey then some { user := sampleUser } else none

/-- An environment sitting inside a frame. -/
def framedEnv : Env :=
  { inFrame := true
    cachedBlob := none
    serverResult := Except.error QueryError.nonApollo
    decrypt := fun _ _ => none
    perUserEntryExists := fun _ => false
    setNextUUIDResult := false
    isMobileApp := false }

/-- An environment with no cached blob. -/
def noBlobEnv : Env :=
  { framedEnv with inFrame := false }

/-- An environment whose server query fails with a `NotFound` ApolloError. -/
def errEnv : Env :=
  { inFrame := false
    cachedBlob := some sampleBlob
    serverResult := Except.error (QueryError.apollo [GqlErrorType.NotFound])
    decrypt := fun _ _ => none
    perUserEntryExists := fun _ => false
    setNextUUIDResult := true
    isMobileApp := false }

/-- An environment where only an alternative key decrypts the blob. -/
def altEnv : Env :=
  { inFrame := false
    cachedBlob := some sampleBlob
    serverResult := Except.ok sampleRes
    decrypt := decryptAltOnly
    perUserEntryExists := fun _ => false
    setNextUUIDResult := true
    isMobileApp := true }

/-- An environment where the primary key decrypts the blob and the server
    returned refreshed user data. -/
def primaryEnv : Env :=
  { altEnv with decrypt := decryptPrimaryOnly }

/-- An environment where the primary key decrypts the blob but the server
    response carries no current user. -/
def noUserEnv : Env :=
  { primaryEnv with serverResult := Except.ok sampleResNoUser }

/-- An environment where no key decrypts the blob. -/
def noKeyEnv : Env :=
  { altEnv with decrypt := fun _ _ => none }

/-- A server response listing the decryptable alternative key first, to
    exhibit the fallback loop stopping early. -/
def sampleResStop : ServerResponse :=
  { cacheKey := sampleKey
    alternativeCacheKeys := [altKeyB, altKeyA]
    currentUser := some sampleRefresh }

/-- An environment where the first alternative key decrypts the blob and a
    further alternative key is never tried. -/
def stopEnv : Env :=
  { altEnv with serverResult := Except.ok sampleResStop }

end Skiff

namespace Skiff

/-! ## Helper lemmas -/

theorem decryptKeys_append (a b : List Effect) :
    decryptKeys (a ++ b) = decryptKeys a ++ decryptKeys b := by
  simp [decryptKeys]

theorem sessionWrites_append (a b : List Effect) :
    sessionWrites (a ++ b) = sessionWrites a ++ sessionWrites b := by
  simp [sessionWrites]

theorem savedUsers_append (a b : List Effect) :
    savedUsers (a ++ b) = savedUsers a ++ savedUsers b := by
  simp [savedUsers]

theorem phaseList_append (a b : List Effect) :
    phaseList (a ++ b) = phaseList a ++ phaseList b := by
  simp [phaseList]

theorem decryptKeys_setNext (env : Env) : decryptKeys (setNextIDAndReload env) = [] := by
  cases h : env.setNextUUIDResult <;> simp [setNextIDAndReload, h, decryptKeys]

theorem sessionWrites_setNext (env : Env) : sessionWrites (setNextIDAndReload env) = [] := by
  cases h : env.setNextUUIDResult <;> simp [setNextIDAndReload, h, sessionWrites]

theorem savedUsers_setNext (env : Env) : savedUsers (setNextIDAndReload env) = [] := by
  cases h : env.setNextUUIDResult <;> simp [setNextIDAndReload, h, savedUsers]

theorem phaseList_setNext (env : Env) : phaseList (setNextIDAndReload env) = [] := by
  cases h : env.setNextUUIDResult <;> simp [setNextIDAndReload, h, phaseList, phaseOf]

theorem altKeys_decryptKeys (env : Env) (blob ck : String) (ks : List String) :
    decryptKeys (tryAlternativeKeys env blob ck ks).2 =
      claimedAltOrder (fun k => (env.decrypt blob k).isSome) ks := by
  induction ks with
  | nil => rfl
  | cons k ks ih =>
    cases hd : env.decrypt blob k with
    | some data => simp [tryAlternativeKeys, claimedAltOrder, hd, decryptKeys]
    | none =>
      simp only [tryAlternativeKeys, hd, claimedAltOrder, Option.isSome_none]
      simp only [decryptKeys, List.filterMap_cons] at ih ⊢
      simp [ih]

theorem altKeys_mem (env : Env) (blob ck : String) (ks : List String) :
    ∀ e ∈ (tryAlternativeKeys env blob ck ks).2,
      (∃ k, e = Effect.decryptAttempt k) ∨ ∃ uid, e = Effect.writeSessionCache uid ck := by
  induction ks with
  | nil => simp [tryAlternativeKeys]
  | cons k ks ih =>
    intro e he
    cases hd : env.decrypt blob k with
    | some data =>
      rw [tryAlternativeKeys] at he
      simp [hd] at he
      rcases he with h | h
      · exact Or.inl ⟨k, h⟩
      · exact Or.inr ⟨data.user.userID, h⟩
    | none =>
      rw [tryAlternativeKeys] at he
      simp [hd] at he
      rcases he with h | h
      · exact Or.inl ⟨k, h⟩
      · exact ih e h

theorem altKeys_writes_none (env : Env) (blob ck : String) (ks : List String)
    (h : (tryAlternativeKeys env blob ck ks).1 = none) :
    sessionWrites (tryAlternativeKeys env blob ck ks).2 = [] := by
  induction ks with
  | nil => rfl
  | cons k ks ih =>
    cases hd : env.decrypt blob k with
    | some data =>
      rw [tryAlternativeKeys] at h
      simp [hd] at h
    | none =>
      rw [tryAlternativeKeys] at h ⊢
      simp only [hd] at h ⊢
      simp only [sessionWrites, List.filterMap_cons] at ih ⊢
      exact ih h

theorem altKeys_writes_some (env : Env) (blob ck : String) (ks : List String) (u : User)
    (h : (tryAlternativeKeys env blob ck ks).1 = some u) :
    sessionWrites (tryAlternativeKeys env blob ck ks).2 = [(u.userID, ck)] := by
  induction ks with
  | nil => simp [tryAlternativeKeys] at h
  | cons k ks ih =>
    cases hd : env.decrypt blob k with
    | some data =>
      rw [tryAlternativeKeys] at h ⊢
      simp only [hd] at h ⊢
      simp only [Option.some_inj] at h
      simp [sessionWrites, h]
    | none =>
      rw [tryAlternativeKeys] at h ⊢
      simp only [hd] at h ⊢
      simp only [sessionWrites, List.filterMap_cons] at ih ⊢
      exact ih h

end Skiff

namespace Skiff

theorem decryptPhase_decryptKeys (env : Env) (blob ck : String) (aks : List String) :
    decryptKeys (decryptPhase env blob ck aks).2 =
      ck :: (if (env.decrypt blob ck).isSome then []
             else claimedAltOrder (fun k => (env.decrypt blob k).isSome) aks) := by
  cases hd : env.decrypt blob ck with
  | some data =>
    cases hp : env.perUserEntryExists data.user.userID <;>
      simp [decryptPhase, tryPrimaryKey, hd, hp, decryptKeys]
  | none =>
    simp only [decryptPhase, tryPrimaryKey, hd, Option.isSome_none]
    rw [decryptKeys_append, altKeys_decryptKeys]
    simp [decryptKeys]

theorem decryptPhase_mem (env : Env) (blob ck : String) (aks : List String) :
    ∀ e ∈ (decryptPhase env blob ck aks).2,
      (∃ k, e = Effect.decryptAttempt k) ∨ (∃ uid, e = Effect.writeSessionCache uid ck) ∨
        e = Effect.removeOldFormatEntry := by
  intro e he
  cases hd : env.decrypt blob ck with
  | some data =>
    rw [decryptPhase, tryPrimaryKey] at he
    simp only [hd] at he
    cases hp : env.perUserEntryExists data.user.userID <;> simp [hp] at he
    · rcases he with h | h | h
      · exact Or.inl ⟨ck, h⟩
      · exact Or.inr (Or.inl ⟨data.user.userID, h⟩)
      · exact Or.inr (Or.inr h)
    · exact Or.inl ⟨ck, he⟩
  | none =>
    rw [decryptPhase, tryPrimaryKey] at he
    simp only [hd] at he
    simp at he
    rcases he with h | h
    · exact Or.inl ⟨ck, h⟩
    · rcases altKeys_mem env blob ck aks e h with h | ⟨uid, h⟩
      · exact Or.inl h
      · exact Or.inr (Or.inl ⟨uid, h⟩)

theorem decryptPhase_phase2 (env : Env) (blob ck : String) (aks : List String) :
    ∀ e ∈ (decryptPhase env blob ck aks).2, phaseOf e = some 2 := by
  intro e he
  rcases decryptPhase_mem env blob ck aks e he with ⟨k, rfl⟩ | ⟨uid, rfl⟩ | rfl <;> rfl

theorem decryptPhase_savedUsers (env : Env) (blob ck : String) (aks : List String) :
    savedUsers (decryptPhase env blob ck aks).2 = [] := by
  rw [savedUsers, List.filterMap_eq_nil_iff]
  intro e he
  rcases decryptPhase_mem env blob ck aks e he with ⟨k, rfl⟩ | ⟨uid, rfl⟩ | rfl <;> rfl

theorem decryptPhase_no_send (env : Env) (blob ck : String) (aks : List String) (u : User) :
    Effect.sendUserDataToMobileApp u ∉ (decryptPhase env blob ck aks).2 := by
  intro he
  rcases decryptPhase_mem env blob ck aks _ he with ⟨k, h⟩ | ⟨uid, h⟩ | h <;> simp at h

theorem decryptPhase_no_start (env : Env) (blob ck : String) (aks : List String) :
    Effect.startSetDefaultEmailAlias ∉ (decryptPhase env blob ck aks).2 := by
  intro he
  rcases decryptPhase_mem env blob ck aks _ he with ⟨k, h⟩ | ⟨uid, h⟩ | h <;> simp at h

end Skiff

namespace Skiff

theorem decryptPhase_writes_primary_hit (env : Env) (blob ck : String) (aks : List String)
    (data : SessionCacheData) (hd : env.decrypt blob ck = some data)
    (hp : env.perUserEntryExists data.user.userID = false) :
    sessionWrites (decryptPhase env blob ck aks).2 = [(data.user.userID, ck)] ∧
      Effect.removeOldFormatEntry ∈ (decryptPhase env blob ck aks).2 := by
  simp [decryptPhase, tryPrimaryKey, hd, hp, sessionWrites]

theorem decryptPhase_writes_primary_exists (env : Env) (blob ck : String) (aks : List String)
    (data : SessionCacheData) (hd : env.decrypt blob ck = some data)
    (hp : env.perUserEntryExists data.user.userID = true) :
    sessionWrites (decryptPhase env blob ck aks).2 = [] ∧
      Effect.removeOldFormatEntry ∉ (decryptPhase env blob ck aks).2 := by
  simp [decryptPhase, tryPrimaryKey, hd, hp, sessionWrites]

theorem decryptPhase_primary_miss (env : Env) (blob ck : String) (aks : List String)
    (hd : env.decrypt blob ck = none) :
    (decryptPhase env blob ck aks).1 = (tryAlternativeKeys env blob ck aks).1 ∧
      (decryptPhase env blob ck aks).2 =
        Effect.decryptAttempt ck :: (tryAlternativeKeys env blob ck aks).2 := by
  simp [decryptPhase, tryPrimaryKey, hd]

theorem decryptPhase_writes_alt (env : Env) (blob ck : String) (aks : List String)
    (hd : env.decrypt blob ck = none) :
    Effect.removeOldFormatEntry ∉ (decryptPhase env blob ck aks).2 ∧
      ((decryptPhase env blob ck aks).1 = none →
        sessionWrites (decryptPhase env blob ck aks).2 = []) ∧
      ∀ u, (decryptPhase env blob ck aks).1 = some u →
        sessionWrites (decryptPhase env blob ck aks).2 = [(u.userID, ck)] := by
  obtain ⟨h1, h2⟩ := decryptPhase_primary_miss env blob ck aks hd
  refine ⟨?_, ?_, ?_⟩
  · rw [h2]
    intro hmem
    simp at hmem
    rcases altKeys_mem env blob ck aks _ hmem with ⟨k, h⟩ | ⟨uid, h⟩ <;> simp at h
  · intro hn
    rw [h1] at hn
    rw [h2]
    simp only [sessionWrites, List.filterMap_cons]
    simpa [sessionWrites] using altKeys_writes_none env blob ck aks hn
  · intro u hu
    rw [h1] at hu
    rw [h2]
    simp only [sessionWrites, List.filterMap_cons]
    simpa [sessionWrites] using altKeys_writes_some env blob ck aks u hu

theorem decryptPhase_primary_user (env : Env) (blob ck : String) (aks : List String)
    (data : SessionCacheData) (hd : env.decrypt blob ck = some data) :
    (decryptPhase env blob ck aks).1 = some data.user := by
  cases hp : env.perUserEntryExists data.user.userID <;>
    simp [decryptPhase, tryPrimaryKey, hd, hp]

theorem tryCachedLogin_ok_eq (env : Env) (blob : String) (res : ServerResponse)
    (hf : env.inFrame = false) (hb : env.cachedBlob = some blob)
    (hne : blob.isEmpty = false) (hs : env.serverResult = Except.ok res) :
    tryCachedLogin env =
      match (decryptPhase env blob res.cacheKey res.alternativeCacheKeys).1 with
      | none =>
        (false, [Effect.readCache, Effect.serverQuery] ++
          (decryptPhase env blob res.cacheKey res.alternativeCacheKeys).2 ++
          setNextIDAndReload env)
      | some u =>
        (true, [Effect.readCache, Effect.serverQuery] ++
          (decryptPhase env blob res.cacheKey res.alternativeCacheKeys).2 ++
          [Effect.saveCurrentUserData (refreshUserData u res.currentUser)] ++
          (if env.isMobileApp then
            [Effect.sendUserDataToMobileApp (refreshUserData u res.currentUser)] else []) ++
          [Effect.startSetDefaultEmailAlias]) := by
  rw [tryCachedLogin]
  simp only [hf, hb, hne, hs, Bool.false_eq_true, if_false]

theorem tryCachedLogin_err_eq (env : Env) (blob : String) (e : QueryError)
    (hf : env.inFrame = false) (hb : env.cachedBlob = some blob)
    (hne : blob.isEmpty = false) (hs : env.serverResult = Except.error e) :
    tryCachedLogin env =
      if isInvalidSessionError e then
        (false, [Effect.readCache, Effect.serverQuery, Effect.logInvalidCache] ++
          setNextIDAndReload env)
      else
        (false, [Effect.readCache, Effect.serverQuery, Effect.logUnexpectedError]) := by
  rw [tryCachedLogin]
  simp only [hf, hb, hne, hs, Bool.false_eq_true, if_false]

end Skiff

namespace Skiff

/-! ## Claim theorems -/

/-- C8: a call made while the page is embedded in a frame returns false
    immediately, with an empty effect trace: no local-storage read, no server
    query, and no modification of local state. -/
theorem tryCachedLogin_inFrame (env : Env) (h : env.inFrame = true) :
    tryCachedLogin env = (false, []) := by
  rw [tryCachedLogin]
  simp [h]

theorem tryCachedLogin_inFrame_witness :
    framedEnv.inFrame = true ∧ tryCachedLogin framedEnv = (false, []) :=
  ⟨rfl, tryCachedLogin_inFrame framedEnv rfl⟩

/-- C9: `abbreviateWalletAddress` returns the empty string on an undefined or
    empty address; on a non-empty address with default parameters it returns
    the first five characters, an ellipsis, and the last four characters; and
    `createAbbreviatedWalletEmail w d` is `abbreviateWalletAddress w` followed
    by an at sign and `d`. -/
theorem abbreviateWalletAddress_spec :
    abbreviateWalletAddress none none none = "" ∧
    abbreviateWalletAddress (some emptyStr) none none = "" ∧
    (∀ w : String, w.isEmpty = false →
      abbreviateWalletAddress (some w) none none = w.take 5 ++ "..." ++ w.takeRight 4) ∧
    ∀ w d : String,
      createAbbreviatedWalletEmail w d =
        abbreviateWalletAddress (some w) none none ++ "@" ++ d := by
  refine ⟨rfl, rfl, ?_, ?_⟩
  · intro w hw
    simp [abbreviateWalletAddress, jsSliceNeg, hw]
  · intro w d
    rfl

theorem abbreviateWalletAddress_spec_witness :
    sampleAddr.isEmpty = false ∧
      abbreviateWalletAddress (some sampleAddr) none none =
        sampleAddr.take 5 ++ "..." ++ sampleAddr.takeRight 4 :=
  ⟨by decide, abbreviateWalletAddress_spec.2.2.1 sampleAddr (by decide)⟩

/-- C10: `isCosmosHubAddress` is a total boolean function, false on a falsy
    alias and otherwise reporting whether bech32 validation succeeds; and
    `getWalletIcon` returns undefined on a falsy alias, with the Ethereum
    checks taking priority over the Cosmos-family checks, which take priority
    over the Solana check. -/
theorem walletIcon_total_priority :
    (∀ v, isCosmosHubAddress v none = false) ∧
    (∀ v, isCosmosHubAddress v (some emptyStr) = false) ∧
    (∀ v a, a.isEmpty = false → isCosmosHubAddress v (some a) = v a) ∧
    (∀ c : WalletChecks, getWalletIcon c none = none ∧
      getWalletIcon c (some emptyStr) = none) ∧
    (∀ (c : WalletChecks) (a : String), a.isEmpty = false →
      (c.isEthereumAddress a || c.isENSName a) = true →
      getWalletIcon c (some a) = some Icon.Ethereum) ∧
    (∀ (c : WalletChecks) (a : String), a.isEmpty = false →
      (c.isEthereumAddress a || c.isENSName a) = false →
      (c.cosmosValidate a || c.isJunoAddress a || c.isICNSName a) = true →
      getWalletIcon c (some a) = some Icon.Atom) ∧
    (∀ (c : WalletChecks) (a : String), a.isEmpty = false →
      (c.isEthereumAddress a || c.isENSName a) = false →
      (c.cosmosValidate a || c.isJunoAddress a || c.isICNSName a) = false →
      c.isSolanaAddress a = true →
      getWalletIcon c (some a) = some Icon.Solana) := by
  refine ⟨fun v => rfl, fun v => rfl, ?_, fun c => ⟨rfl, rfl⟩, ?_, ?_, ?_⟩
  · intro v a ha
    simp [isCosmosHubAddress, ha]
  · intro c a ha he
    simp [getWalletIcon, ha, he]
  · intro c a ha he hc
    simp [getWalletIcon, isCosmosHubAddress, ha, he, hc]
  · intro c a ha he hc hs
    simp [getWalletIcon, isCosmosHubAddress, ha, he, hc, hs]

theorem walletIcon_total_priority_witness :
    sampleAddr.isEmpty = false ∧
      (allTrueChecks.isEthereumAddress sampleAddr
        || allTrueChecks.isENSName sampleAddr) = true ∧
      getWalletIcon allTrueChecks (some sampleAddr) = some Icon.Ethereum :=
  ⟨by decide, rfl, walletIcon_total_priority.2.2.2.2.1 allTrueChecks sampleAddr (by decide) rfl⟩

/-- C3: whenever the server session-cache query throws, the call returns
    false; an ApolloError whose first GraphQL error is NotFound, BadRequest or
    NotAuthorized makes it clear the latest-user-ID cache and reload exactly
    when a next user ID was set; any other error is only logged, with no state
    cleared and no storage write. -/
theorem tryCachedLogin_queryError (env : Env) (blob : String) (e : QueryError)
    (hf : env.inFrame = false) (hb : env.cachedBlob = some blob)
    (hne : blob.isEmpty = false) (hs : env.serverResult = Except.error e) :
    (tryCachedLogin env).1 = false ∧
    (isInvalidSessionError e = true →
      (tryCachedLogin env).2 =
        [Effect.readCache, Effect.serverQuery, Effect.logInvalidCache,
          Effect.clearLatestUserIDCache] ++
          (if env.setNextUUIDResult then [Effect.reloadPage] else [])) ∧
    (isInvalidSessionError e = false →
      (tryCachedLogin env).2 =
        [Effect.readCache, Effect.serverQuery, Effect.logUnexpectedError]) := by
  rw [tryCachedLogin_err_eq env blob e hf hb hne hs]
  cases hI : isInvalidSessionError e <;> simp [hI, setNextIDAndReload]

theorem tryCachedLogin_queryError_witness :
    sampleBlob.isEmpty = false ∧
      isInvalidSessionError (QueryError.apollo [GqlErrorType.NotFound]) = true ∧
      (tryCachedLogin errEnv).1 = false ∧
      (tryCachedLogin errEnv).2 =
        [Effect.readCache, Effect.serverQuery, Effect.logInvalidCache,
          Effect.clearLatestUserIDCache, Effect.reloadPage] := by
  have h := tryCachedLogin_queryError errEnv sampleBlob
    (QueryError.apollo [GqlErrorType.NotFound]) rfl rfl (by decide) rfl
  exact ⟨by decide, by decide, h.1, by simpa using h.2.1 (by decide)⟩

end Skiff

namespace Skiff

/-- C1: on a successful server query, decryption is attempted with the primary
    cache key first, and the alternative keys in server order are tried only
    when the primary attempt fails, stopping at the first success. -/
theorem tryCachedLogin_fallback_order (env : Env) (blob : String) (res : ServerResponse)
    (hf : env.inFrame = false) (hb : env.cachedBlob = some blob)
    (hne : blob.isEmpty = false) (hs : env.serverResult = Except.ok res) :
    decryptKeys (tryCachedLogin env).2 =
      res.cacheKey ::
        (if (env.decrypt blob res.cacheKey).isSome then []
         else claimedAltOrder (fun k => (env.decrypt blob k).isSome)
           res.alternativeCacheKeys) := by
  have hkeys := decryptPhase_decryptKeys env blob res.cacheKey res.alternativeCacheKeys
  rw [tryCachedLogin_ok_eq env blob res hf hb hne hs]
  cases hfb : (decryptPhase env blob res.cacheKey res.alternativeCacheKeys).1 with
  | none =>
    simp only [decryptKeys_append, hkeys, decryptKeys_setNext]
    simp [decryptKeys]
  | some u =>
    cases hm : env.isMobileApp <;>
      · simp only [hm, decryptKeys_append, hkeys, decryptKeys_setNext]
        simp [decryptKeys]

theorem tryCachedLogin_fallback_order_witness :
    stopEnv.inFrame = false ∧ stopEnv.cachedBlob = some sampleBlob ∧
      sampleBlob.isEmpty = false ∧ stopEnv.serverResult = Except.ok sampleResStop ∧
      decryptKeys (tryCachedLogin stopEnv).2 = [sampleKey, altKeyB] := by
  refine ⟨rfl, rfl, by decide, rfl, ?_⟩
  rw [tryCachedLogin_fallback_order stopEnv sampleBlob sampleResStop rfl rfl (by decide) rfl]
  decide

end Skiff

namespace Skiff

theorem refreshUserData_fields (u : User) (rd : UserRefresh) :
    (refreshUserData u (some rd)).publicData = rd.publicData ∧
    (refreshUserData u (some rd)).recoveryEmail =
      (if rd.recoveryEmail.isDefined then rd.recoveryEmail else u.recoveryEmail) ∧
    (refreshUserData u (some rd)).unverifiedRecoveryEmail =
      (if rd.unverifiedRecoveryEmail.isDefined then rd.unverifiedRecoveryEmail
       else u.unverifiedRecoveryEmail) ∧
    (refreshUserData u (some rd)).walletAddress =
      (if rd.walletAddress.truthy then rd.walletAddress else u.walletAddress) ∧
    (refreshUserData u (some rd)).rootOrgID =
      (if rd.rootOrgID.truthy then rd.rootOrgID else u.rootOrgID) ∧
    (refreshUserData u (some rd)).userID = u.userID ∧
    (refreshUserData u (some rd)).otherFields = u.otherFields := by
  cases h1 : rd.recoveryEmail.isDefined <;>
    cases h2 : rd.unverifiedRecoveryEmail.isDefined <;>
      cases h3 : rd.walletAddress.truthy <;>
        cases h4 : rd.rootOrgID.truthy <;>
          simp [refreshUserData, h1, h2, h3, h4]

/-- C2, counterexample: a run in which the primary key decrypts the blob but
    the server response carries no current-user object persists the decrypted
    user without refreshing `publicData`, so the claim that `publicData` is
    always overwritten with the server value fails. -/
theorem tryCachedLogin_reconcile_counterexample :
    ¬ publicDataAlwaysRefreshed noUserEnv := by
  intro h
  obtain ⟨rd, hrd, hpd⟩ := h sampleUser (by decide)
  rw [show serverUserOf noUserEnv = (none : Option UserRefresh) from rfl] at hrd
  exact Option.noConfusion hrd

/-- C2, amended: on every successful decryption, when the server response
    carries a current-user object the reconciliation step persists exactly the
    merged user via `saveCurrentUserData`: `publicData` is overwritten with the
    server value, `recoveryEmail` and `unverifiedRecoveryEmail` only when the
    server value is not undefined, `walletAddress` and `rootOrgID` only when
    the server value is truthy, and every other field is unchanged.  (When the
    response carries no current-user object, the decrypted user is persisted
    unchanged.) -/
theorem tryCachedLogin_reconcile (env : Env) (blob : String) (res : ServerResponse)
    (rd : UserRefresh) (u : User)
    (hf : env.inFrame = false) (hb : env.cachedBlob = some blob)
    (hne : blob.isEmpty = false) (hs : env.serverResult = Except.ok res)
    (hu : decryptedUserOf env blob res = some u)
    (hcu : res.currentUser = some rd) :
    savedUsers (tryCachedLogin env).2 = [refreshUserData u (some rd)] ∧
    (refreshUserData u (some rd)).publicData = rd.publicData ∧
    (refreshUserData u (some rd)).recoveryEmail =
      (if rd.recoveryEmail.isDefined then rd.recoveryEmail else u.recoveryEmail) ∧
    (refreshUserData u (some rd)).unverifiedRecoveryEmail =
      (if rd.unverifiedRecoveryEmail.isDefined then rd.unverifiedRecoveryEmail
       else u.unverifiedRecoveryEmail) ∧
    (refreshUserData u (some rd)).walletAddress =
      (if rd.walletAddress.truthy then rd.walletAddress else u.walletAddress) ∧
    (refreshUserData u (some rd)).rootOrgID =
      (if rd.rootOrgID.truthy then rd.rootOrgID else u.rootOrgID) ∧
    (refreshUserData u (some rd)).userID = u.userID ∧
    (refreshUserData u (some rd)).otherFields = u.otherFields := by
  refine ⟨?_, refreshUserData_fields u rd⟩
  rw [decryptedUserOf] at hu
  rw [tryCachedLogin_ok_eq env blob res hf hb hne hs, hu, hcu]
  cases hm : env.isMobileApp <;>
    · simp [hm, savedUsers_append, decryptPhase_savedUsers, savedUsers_setNext, savedUsers]
      intro a ha
      rcases decryptPhase_mem env blob res.cacheKey res.alternativeCacheKeys a ha with
        ⟨k, rfl⟩ | ⟨uid, rfl⟩ | rfl <;> rfl

theorem tryCachedLogin_reconcile_witness :
    primaryEnv.inFrame = false ∧ primaryEnv.cachedBlob = some sampleBlob ∧
      sampleBlob.isEmpty = false ∧ primaryEnv.serverResult = Except.ok sampleRes ∧
      decryptedUserOf primaryEnv sampleBlob sampleRes = some sampleUser ∧
      sampleRes.currentUser = some sampleRefresh ∧
      savedUsers (tryCachedLogin primaryEnv).2 =
        [refreshUserData sampleUser (some sampleRefresh)] := by
  refine ⟨rfl, rfl, by decide, rfl, by decide, rfl, ?_⟩
  exact (tryCachedLogin_reconcile primaryEnv sampleBlob sampleRes sampleRefresh sampleUser
    rfl rfl (by decide) rfl (by decide) rfl).1

end Skiff

namespace Skiff

/-- C4: on every successful decryption the storage format is migrated: when
    the primary cache key decrypts the blob and no per-user-ID entry exists,
    the session cache is rewritten (for that user, under the primary key) and
    the old-format entry is removed; when an alternative key decrypts the
    blob, the data is re-encrypted and written using the primary cache key,
    not the alternative key that succeeded. -/
theorem tryCachedLogin_migration (env : Env) (blob : String) (res : ServerResponse)
    (hf : env.inFrame = false) (hb : env.cachedBlob = some blob)
    (hne : blob.isEmpty = false) (hs : env.serverResult = Except.ok res) :
    (∀ data, env.decrypt blob res.cacheKey = some data →
      env.perUserEntryExists data.user.userID = false →
      sessionWrites (tryCachedLogin env).2 = [(data.user.userID, res.cacheKey)] ∧
        Effect.removeOldFormatEntry ∈ (tryCachedLogin env).2) ∧
    (env.decrypt blob res.cacheKey = none →
      ∀ u, decryptedUserOf env blob res = some u →
        sessionWrites (tryCachedLogin env).2 = [(u.userID, res.cacheKey)]) := by
  constructor
  · intro data hd hp
    have hfb := decryptPhase_primary_user env blob res.cacheKey res.alternativeCacheKeys data hd
    obtain ⟨hw, hr⟩ :=
      decryptPhase_writes_primary_hit env blob res.cacheKey res.alternativeCacheKeys data hd hp
    rw [tryCachedLogin_ok_eq env blob res hf hb hne hs, hfb]
    constructor
    · cases hm : env.isMobileApp <;>
        · simp only [hm, sessionWrites_append, hw, sessionWrites_setNext]
          simp [sessionWrites]
    · simp [List.mem_append, hr]
  · intro hd u hu
    rw [decryptedUserOf] at hu
    obtain ⟨hro, hwn, hws⟩ :=
      decryptPhase_writes_alt env blob res.cacheKey res.alternativeCacheKeys hd
    have hw := hws u hu
    rw [tryCachedLogin_ok_eq env blob res hf hb hne hs, hu]
    cases hm : env.isMobileApp <;>
      · simp only [hm, sessionWrites_append, hw, sessionWrites_setNext]
        simp [sessionWrites]

theorem tryCachedLogin_migration_witness :
    altEnv.decrypt sampleBlob sampleRes.cacheKey = none ∧
      decryptedUserOf altEnv sampleBlob sampleRes = some sampleUser ∧
      sessionWrites (tryCachedLogin altEnv).2 = [(sampleUser.userID, sampleKey)] := by
  refine ⟨by decide, by decide, ?_⟩
  have h := (tryCachedLogin_migration altEnv sampleBlob sampleRes rfl rfl
    (by decide) rfl).2 (by decide) sampleUser (by decide)
  simpa using h

/-- C5: when neither the primary cache key nor any alternative key decrypts
    the blob, the call clears the latest-user-ID cache, reloads the page
    exactly when a next user ID was set, and returns false without persisting
    any user data or writing the session cache. -/
theorem tryCachedLogin_decryptFail (env : Env) (blob : String) (res : ServerResponse)
    (hf : env.inFrame = false) (hb : env.cachedBlob = some blob)
    (hne : blob.isEmpty = false) (hs : env.serverResult = Except.ok res)
    (hnd : decryptedUserOf env blob res = none) :
    (tryCachedLogin env).1 = false ∧
    Effect.clearLatestUserIDCache ∈ (tryCachedLogin env).2 ∧
    (Effect.reloadPage ∈ (tryCachedLogin env).2 ↔ env.setNextUUIDResult = true) ∧
    savedUsers (tryCachedLogin env).2 = [] ∧
    sessionWrites (tryCachedLogin env).2 = [] := by
  rw [decryptedUserOf] at hnd
  have hd : env.decrypt blob res.cacheKey = none := by
    cases hd0 : env.decrypt blob res.cacheKey with
    | none => rfl
    | some data =>
      have hfb :=
        decryptPhase_primary_user env blob res.cacheKey res.alternativeCacheKeys data hd0
      rw [hfb] at hnd
      exact Option.noConfusion hnd
  obtain ⟨hro, hwn, hws⟩ :=
    decryptPhase_writes_alt env blob res.cacheKey res.alternativeCacheKeys hd
  rw [tryCachedLogin_ok_eq env blob res hf hb hne hs, hnd]
  refine ⟨rfl, ?_, ?_, ?_, ?_⟩
  · simp [setNextIDAndReload, List.mem_append]
  · cases hr : env.setNextUUIDResult with
    | true => simp [setNextIDAndReload, hr, List.mem_append]
    | false =>
      simp [setNextIDAndReload, hr, List.mem_append]
      intro hmem
      rcases decryptPhase_mem env blob res.cacheKey res.alternativeCacheKeys _ hmem with
        ⟨k, hh⟩ | ⟨uid, hh⟩ | hh <;> simp at hh
  · simp only [savedUsers_append, decryptPhase_savedUsers, savedUsers_setNext]
    simp [savedUsers]
  · simp only [sessionWrites_append, hwn hnd, sessionWrites_setNext]
    simp [sessionWrites]

theorem tryCachedLogin_decryptFail_witness :
    decryptedUserOf noKeyEnv sampleBlob sampleRes = none ∧
      (tryCachedLogin noKeyEnv).1 = false ∧
      Effect.clearLatestUserIDCache ∈ (tryCachedLogin noKeyEnv).2 ∧
      savedUsers (tryCachedLogin noKeyEnv).2 = [] := by
  have h := tryCachedLogin_decryptFail noKeyEnv sampleBlob sampleRes rfl rfl
    (by decide) rfl (by decide)
  exact ⟨by decide, h.1, h.2.1, h.2.2.2.1⟩

end Skiff

namespace Skiff

theorem pairwise_all2 (M : List Nat) (hM : ∀ x ∈ M, x = 2) :
    List.Pairwise (fun a b : Nat => a ≤ b) M := by
  induction M with
  | nil => exact List.Pairwise.nil
  | cons a M ih =>
    refine List.Pairwise.cons ?_ (ih fun x hx => hM x (List.mem_cons_of_mem a hx))
    intro b hb
    have ha := hM a (List.mem_cons_self a M)
    have hb2 := hM b (List.mem_cons_of_mem a hb)
    omega

theorem pairwise_block (M tail : List Nat) (hM : ∀ x ∈ M, x = 2)
    (htail : tail = [] ∨ tail = [3]) :
    List.Pairwise (fun a b : Nat => a ≤ b) (0 :: 1 :: (M ++ tail)) := by
  have hmem : ∀ b ∈ M ++ tail, 1 ≤ b := by
    intro b hb
    rcases List.mem_append.mp hb with hb | hb
    · have := hM b hb; omega
    · rcases htail with rfl | rfl
      · simp at hb
      · simp at hb; omega
  have hMt : List.Pairwise (fun a b : Nat => a ≤ b) (M ++ tail) := by
    rcases htail with rfl | rfl
    · simpa using pairwise_all2 M hM
    · rw [List.pairwise_append]
      refine ⟨pairwise_all2 M hM, by simp, ?_⟩
      intro a ha b hb
      have := hM a ha
      simp at hb
      omega
  refine List.Pairwise.cons ?_ (List.Pairwise.cons hmem hMt)
  intro b hb
  rcases List.mem_cons.mp hb with rfl | hb
  · omega
  · have := hmem b hb; omega

theorem count_all2_eq_zero (M : List Nat) (hM : ∀ x ∈ M, x = 2) (n : Nat) (hn : n ≠ 2) :
    M.count n = 0 := by
  rw [List.count_eq_zero]
  intro h
  exact hn (hM n h)

theorem counts_block (M tail : List Nat) (hM : ∀ x ∈ M, x = 2)
    (htail : tail = [] ∨ tail = [3]) (n : Nat) (hn : n = 0 ∨ n = 1 ∨ n = 3) :
    (0 :: 1 :: (M ++ tail)).count n ≤ 1 := by
  have h0 : M.count 0 = 0 := count_all2_eq_zero M hM 0 (by omega)
  have h1 : M.count 1 = 0 := count_all2_eq_zero M hM 1 (by omega)
  have h3 : M.count 3 = 0 := count_all2_eq_zero M hM 3 (by omega)
  rcases hn with rfl | rfl | rfl <;> rcases htail with rfl | rfl <;>
    simp [List.count_cons, List.count_append, h0, h1, h3]

theorem decryptPhase_phaseList (env : Env) (blob ck : String) (aks : List String) :
    ∀ x ∈ phaseList (decryptPhase env blob ck aks).2, x = 2 := by
  intro x hx
  simp only [phaseList, List.mem_filterMap] at hx
  obtain ⟨e, he, hpe⟩ := hx
  have h2 := decryptPhase_phase2 env blob ck aks e he
  rw [h2] at hpe
  exact (Option.some_inj.mp hpe).symm

end Skiff

namespace Skiff

/-- C6: with no encrypted blob in local storage the call returns false after
    the cache read, before issuing the server query; and on every run the
    pipeline steps (cache read 0, server query 1, decryption/fallback 2,
    local state write 3) appear in nondecreasing order, with the read, the
    query and the write occurring at most once. -/
theorem tryCachedLogin_pipeline (env : Env) :
    (env.inFrame = false → blobFalsy env.cachedBlob = true →
      tryCachedLogin env = (false, [Effect.readCache])) ∧
    List.Pairwise (fun a b : Nat => a ≤ b) (phaseList (tryCachedLogin env).2) ∧
    (phaseList (tryCachedLogin env).2).count 0 ≤ 1 ∧
    (phaseList (tryCachedLogin env).2).count 1 ≤ 1 ∧
    (phaseList (tryCachedLogin env).2).count 3 ≤ 1 := by
  have hshape : phaseList (tryCachedLogin env).2 = [] ∨
      phaseList (tryCachedLogin env).2 = [0] ∨
      ∃ M tail, (∀ x ∈ M, x = 2) ∧ (tail = [] ∨ tail = [3]) ∧
        phaseList (tryCachedLogin env).2 = 0 :: 1 :: (M ++ tail) := by
    cases hfr : env.inFrame with
    | true =>
      left
      rw [tryCachedLogin]
      simp [hfr, phaseList]
    | false =>
      cases hcb : env.cachedBlob with
      | none =>
        right; left
        rw [tryCachedLogin]
        simp [hfr, hcb, phaseList, phaseOf]
      | some blob =>
        cases hbe : blob.isEmpty with
        | true =>
          right; left
          rw [tryCachedLogin]
          simp [hfr, hcb, hbe, phaseList, phaseOf]
        | false =>
          cases hsr : env.serverResult with
          | error e =>
            right; right
            refine ⟨[], [], by simp, Or.inl rfl, ?_⟩
            rw [tryCachedLogin_err_eq env blob e hfr hcb hbe hsr]
            cases hI : isInvalidSessionError e
            · rw [if_neg (by simp [hI])]
              simp [phaseList, phaseOf]
            · rw [if_pos (by simp [hI])]
              simp only [phaseList_append, phaseList_setNext]
              simp [phaseList, phaseOf]
          | ok res =>
            rw [tryCachedLogin_ok_eq env blob res hfr hcb hbe hsr]
            cases hfb :
              (decryptPhase env blob res.cacheKey res.alternativeCacheKeys).1 with
            | none =>
              right; right
              refine
                ⟨phaseList (decryptPhase env blob res.cacheKey res.alternativeCacheKeys).2,
                  [], decryptPhase_phaseList env blob res.cacheKey res.alternativeCacheKeys,
                  Or.inl rfl, ?_⟩
              simp only [phaseList_append, phaseList_setNext]
              simp [phaseList, phaseOf]
            | some u =>
              right; right
              refine
                ⟨phaseList (decryptPhase env blob res.cacheKey res.alternativeCacheKeys).2,
                  [3], decryptPhase_phaseList env blob res.cacheKey res.alternativeCacheKeys,
                  Or.inr rfl, ?_⟩
              cases hm : env.isMobileApp <;>
                · simp only [hm, phaseList_append, phaseList_setNext]
                  simp [phaseList, phaseOf]
  refine ⟨?_, ?_, ?_⟩
  · intro hf hbf
    rw [tryCachedLogin]
    cases hcb : env.cachedBlob with
    | none => simp [hf, hcb]
    | some s =>
      rw [hcb] at hbf
      simp only [blobFalsy] at hbf
      simp [hf, hcb, hbf]
  · rcases hshape with h | h | ⟨M, tail, hM, htail, h⟩ <;> rw [h]
    · exact List.Pairwise.nil
    · simp
    · exact pairwise_block M tail hM htail
  · rcases hshape with h | h | ⟨M, tail, hM, htail, h⟩ <;> rw [h]
    · simp
    · refine ⟨by decide, by decide, by decide⟩
    · exact ⟨counts_block M tail hM htail 0 (by omega),
        counts_block M tail hM htail 1 (by omega),
        counts_block M tail hM htail 3 (by omega)⟩

theorem tryCachedLogin_pipeline_witness :
    noBlobEnv.inFrame = false ∧ blobFalsy noBlobEnv.cachedBlob = true ∧
      tryCachedLogin noBlobEnv = (false, [Effect.readCache]) :=
  ⟨rfl, rfl, (tryCachedLogin_pipeline noBlobEnv).1 rfl rfl⟩

end Skiff

namespace Skiff

/-- C7: every run that returns true starts default-email-alias initialization
    and sends the merged decrypted user to the mobile app exactly when running
    inside the mobile app; no run that returns false triggers either remedial
    action. -/
theorem tryCachedLogin_remedial (env : Env) :
    ((tryCachedLogin env).1 = true →
      Effect.startSetDefaultEmailAlias ∈ (tryCachedLogin env).2 ∧
      (env.isMobileApp = true →
        ∃ u, Effect.saveCurrentUserData u ∈ (tryCachedLogin env).2 ∧
          Effect.sendUserDataToMobileApp u ∈ (tryCachedLogin env).2) ∧
      (env.isMobileApp = false →
        ∀ u, Effect.sendUserDataToMobileApp u ∉ (tryCachedLogin env).2)) ∧
    ((tryCachedLogin env).1 = false →
      Effect.startSetDefaultEmailAlias ∉ (tryCachedLogin env).2 ∧
      ∀ u, Effect.sendUserDataToMobileApp u ∉ (tryCachedLogin env).2) := by
  cases hfr : env.inFrame with
  | true =>
    rw [tryCachedLogin]
    simp [hfr]
  | false =>
    cases hcb : env.cachedBlob with
    | none =>
      rw [tryCachedLogin]
      simp [hfr, hcb]
    | some blob =>
      cases hbe : blob.isEmpty with
      | true =>
        rw [tryCachedLogin]
        simp [hfr, hcb, hbe]
      | false =>
        cases hsr : env.serverResult with
        | error e =>
          rw [tryCachedLogin_err_eq env blob e hfr hcb hbe hsr]
          cases hI : isInvalidSessionError e <;>
            cases hrl : env.setNextUUIDResult <;>
              simp [hI, hrl, setNextIDAndReload]
        | ok res =>
          rw [tryCachedLogin_ok_eq env blob res hfr hcb hbe hsr]
          cases hfb :
            (decryptPhase env blob res.cacheKey res.alternativeCacheKeys).1 with
          | none =>
            refine ⟨fun h => by simp at h, fun _ => ⟨?_, ?_⟩⟩
            · cases hrl : env.setNextUUIDResult <;>
                · simp [setNextIDAndReload, hrl, List.mem_append]
                  exact decryptPhase_no_start env blob res.cacheKey res.alternativeCacheKeys
            · intro u
              cases hrl : env.setNextUUIDResult <;>
                · simp [setNextIDAndReload, hrl, List.mem_append]
                  exact decryptPhase_no_send env blob res.cacheKey res.alternativeCacheKeys u
          | some u =>
            refine ⟨fun _ => ⟨?_, ?_, ?_⟩, fun h => by simp at h⟩
            · simp [List.mem_append]
            · intro hm
              refine ⟨refreshUserData u res.currentUser, ?_, ?_⟩ <;>
                simp [List.mem_append, hm]
            · intro hm u0
              simp [List.mem_append, hm]
              exact decryptPhase_no_send env blob res.cacheKey res.alternativeCacheKeys u0

theorem tryCachedLogin_remedial_witness :
    (tryCachedLogin altEnv).1 = true ∧ altEnv.isMobileApp = true ∧
      Effect.startSetDefaultEmailAlias ∈ (tryCachedLogin altEnv).2 ∧
      ∃ u, Effect.saveCurrentUserData u ∈ (tryCachedLogin altEnv).2 ∧
        Effect.sendUserDataToMobileApp u ∈ (tryCachedLogin altEnv).2 := by
  have h := (tryCachedLogin_remedial altEnv).1 (by decide)
  exact ⟨by decide, rfl, h.1, h.2.1 rfl⟩

end Skiff
